import Mathlib

/-!
Verification of the m4b-tools repository (audio-book combining / converting
tools) against its natural-language specification.

The Python sources are shallowly embedded:
* pure string manipulation (title derivation, natural sort keys, CSV parsing,
  metadata-document encoding) becomes executable Lean functions over
  `String` / `List Char`;
* float seconds become exact rationals `ℚ` (the claims are stated at the
  real-number level; `int(x)` truncation is modelled by `pyInt`);
* file-system and subprocess effects are abstracted into explicit inputs:
  an existence oracle `String → Bool` for the CSV parser, an optional probe
  result for chapter extraction, and per-job outcome fields for the
  converter;
* Python's `list.sort` (a stable sort by key) is modelled by the stable
  `List.mergeSort`.

Python-semantics helpers are prefixed `py`: string truthiness (`pyTruthy`),
`str.strip` (`pyStrip`), `str.split()` (`pyWords`), `str.title()`
(`pyTitleChars`), `int()` truncation (`pyInt`), `a or b` on strings
(`pyOrS`).  ASCII is assumed for case conversion, as in all inputs the
claims mention.
-/

namespace M4b

/-- The six characters Python's `str.strip` / `str.split` treat as
whitespace: space, tab, newline, carriage return, vertical tab, form feed. -/
def pyWhitespace (c : Char) : Bool :=
  c = ' ' ∨ c = '\t' ∨ c = '\n' ∨ c = '\r' ∨ c = Char.ofNat 11 ∨ c = Char.ofNat 12

/-- Python `str.strip()` : drop leading and trailing whitespace. -/
def pyStrip (s : String) : String :=
  String.mk ((((s.toList.dropWhile pyWhitespace).reverse).dropWhile pyWhitespace).reverse)

/-- Python string truthiness: a string is truthy iff it is non-empty. -/
def pyTruthy (s : String) : Bool :=
  s != ""

/-- Python `a or b` for strings: `b` when `a` is falsy (empty), else `a`. -/
def pyOrS (a b : String) : String :=
  if pyTruthy a then a else b

/-- Helper for `pyWords`: accumulates the current word (reversed). -/
def pyWordsAux : List Char → List Char → List String
  | [], cur => if cur = [] then [] else [String.mk cur.reverse]
  | c :: cs, cur =>
    if pyWhitespace c then
      if cur = [] then pyWordsAux cs []
      else String.mk cur.reverse :: pyWordsAux cs []
    else pyWordsAux cs (c :: cur)

/-- Python `str.split()` with no argument: split on whitespace runs,
discarding empty pieces. -/
def pyWords (s : String) : List String :=
  pyWordsAux s.toList []

/-- Join words with single spaces: Python `' '.join(ws)`. -/
def joinSpace : List String → String
  | [] => ""
  | [w] => w
  | w :: ws => w ++ " " ++ joinSpace ws

/-- Python `' '.join(s.split())`: collapse whitespace runs to single spaces
and trim the ends. -/
def collapseWhitespace (s : String) : String :=
  joinSpace (pyWords s)

/-- Helper for `pyTitleChars`: the Bool records whether the previous
character was cased (a letter). -/
def pyTitleAux : Bool → List Char → List Char
  | _, [] => []
  | prev, c :: cs =>
    if c.isAlpha then
      (if prev then c.toLower else c.toUpper) :: pyTitleAux true cs
    else
      c :: pyTitleAux false cs

/-- Python `str.title()` (ASCII): uppercase a letter that follows a
non-letter, lowercase the other letters. -/
def pyTitleChars (s : String) : String :=
  String.mk (pyTitleAux false s.toList)

/-- `os.path`-style basename: the part of the path after the last `/`. -/
def pathBasename (p : String) : String :=
  String.mk ((p.toList.reverse.takeWhile (fun c => c ≠ '/')).reverse)

/-- `pathlib.Path(p).stem`: the basename without its last `.`-suffix (a
leading dot, as in a hidden file, does not start a suffix). -/
def pathStem (p : String) : String :=
  let cs := (pathBasename p).toList
  let rev := cs.reverse
  if rev.contains '.' then
    let body := ((rev.dropWhile (fun c => c ≠ '.')).drop 1).reverse
    if body = [] then String.mk cs else String.mk body
  else
    String.mk cs

/-- `pathlib.Path(p).suffix`, lower-cased as the sources always use it:
the last `.`-suffix of the basename including the dot, `""` when there is
none or when the dot is the first character. -/
def pathSuffixLower (p : String) : String :=
  let cs := (pathBasename p).toList
  let rev := cs.reverse
  if rev.contains '.' then
    let pre := rev.takeWhile (fun c => c ≠ '.')
    if pre.length + 1 = cs.length then ""
    else String.mk (('.' :: pre.reverse).map Char.toLower)
  else ""

/-- Separator class of the combiner's regexes: whitespace, `-` or `_`. -/
def sepChar (c : Char) : Bool :=
  pyWhitespace c ∨ c = '-' ∨ c = '_'

/-- Case-insensitive literal prefix match: `stripCi lit cs` returns the
rest of `cs` after the literal `lit` (given lower-case), or `none`. -/
def stripCi : List Char → List Char → Option (List Char)
  | [], cs => some cs
  | _ :: _, [] => none
  | p :: ps, c :: cs => if c.toLower = p then stripCi ps cs else none

/-- The alternation `(chapter|ch|part|pt)` of
`re.sub(r'^(chapter|ch|part|pt)[\s\-_]*\d*[\s\-_]*', ...)`, tried in the
regex's left-to-right order. -/
def chapterTokenRest (cs : List Char) : Option (List Char) :=
  match stripCi ['c','h','a','p','t','e','r'] cs with
  | some r => some r
  | none =>
    match stripCi ['c','h'] cs with
    | some r => some r
    | none =>
      match stripCi ['p','a','r','t'] cs with
      | some r => some r
      | none => stripCi ['p','t'] cs

/-- `re.sub(r'^(chapter|ch|part|pt)[\s\-_]*\d*[\s\-_]*', '', s, flags=I)`:
strip a leading chapter/part token followed by greedy separators, digits,
separators.  The string is unchanged when no token matches. -/
def stripChapterToken (cs : List Char) : List Char :=
  match chapterTokenRest cs with
  | none => cs
  | some r => ((r.dropWhile sepChar).dropWhile Char.isDigit).dropWhile sepChar

/-- `re.sub(r'^\d+[\s\-_]*', '', s)`: strip a leading digit run (at least
one digit) and following separators. -/
def stripLeadingDigits (cs : List Char) : List Char :=
  match cs with
  | [] => []
  | c :: _ =>
    if c.isDigit then (cs.dropWhile Char.isDigit).dropWhile sepChar else cs

/-- `s.replace('_', ' ').replace('-', ' ')`. -/
def replaceSeps (cs : List Char) : List Char :=
  cs.map (fun c => if c = '_' ∨ c = '-' then ' ' else c)

/-- `derive_chapter_title` from `src/m4b_tools/combiner.py`: return the
stripped existing title when non-empty, else clean the filename stem
(strip chapter/part token, leading digits, separators; collapse
whitespace; title-case), falling back to `"Chapter "` plus the 1-based index. -/
def derive_chapter_title (file_path : String) (index : Nat)
    (existing_title : String) : String :=
  if pyTruthy (pyStrip existing_title) then pyStrip existing_title
  else
    let filename := pathStem file_path
    let cleaned := stripChapterToken filename.toList
    let cleaned := stripLeadingDigits cleaned
    let cleaned := replaceSeps cleaned
    let cleaned := collapseWhitespace (String.mk cleaned)
    if pyTruthy cleaned then pyTitleChars cleaned
    else "Chapter " ++ Nat.repr index

/-- `derive_chapter_title` from the legacy top-level script
`combine-m4b-chapters.py`: returns a truthy existing title verbatim
(without stripping) and prefixes `"Chapter "`, the index and `": "` to a non-empty
cleaned filename title. -/
def legacyDeriveChapterTitle (file_path : String) (index : Nat)
    (existing_title : String) : String :=
  if pyTruthy existing_title then existing_title
  else
    let filename := pathStem file_path
    let cleaned := stripChapterToken filename.toList
    let cleaned := stripLeadingDigits cleaned
    let cleaned := replaceSeps cleaned
    let cleaned := collapseWhitespace (String.mk cleaned)
    if pyTruthy cleaned then
      "Chapter " ++ Nat.repr index ++ ": " ++ pyTitleChars cleaned
    else "Chapter " ++ Nat.repr index

/-- Helper for `splitNumChunks`: single pass over the characters, `inDigit`
says whether the chunk being accumulated (in `cur`, reversed) is a digit
run.  The output alternates text, digits, text, …, starting and ending
with a (possibly empty) text chunk, exactly like
`re.split(r'(\d+)', s)`. -/
def splitNumAux : Bool → List Char → List Char → List String
  | false, cur, [] => [String.mk cur.reverse]
  | true, cur, [] => [String.mk cur.reverse, ""]
  | false, cur, c :: cs =>
    if c.isDigit then String.mk cur.reverse :: splitNumAux true [c] cs
    else splitNumAux false (c :: cur) cs
  | true, cur, c :: cs =>
    if c.isDigit then splitNumAux true (c :: cur) cs
    else String.mk cur.reverse :: splitNumAux false [c] cs

/-- `re.split(r'(\d+)', s)`: split on digit runs, keeping them. -/
def splitNumChunks (s : String) : List String :=
  splitNumAux false [] s.toList

/-- Python `s.isdigit()` restricted to ASCII: non-empty and all digits. -/
def strIsDigit (s : String) : Bool :=
  s != "" && s.toList.all Char.isDigit

/-- Numeric value of a digit string, as Python `int(s)`. -/
def digitsToNat (s : String) : Nat :=
  s.toList.foldl (fun n c => n * 10 + (c.toNat - '0'.toNat)) 0

/-- One element of a natural-sort key: a lower-cased text chunk or the
numeric value of a digit run. -/
def NatKeyElem := Sum String Nat
deriving DecidableEq

/-- `natural_sort_key` from the sources:
`[int(text) if text.isdigit() else text.lower() for text in re.split(r'(\d+)', filename)]`. -/
def natural_sort_key (filename : String) : List NatKeyElem :=
  (splitNumChunks filename).map fun t =>
    if strIsDigit t then Sum.inr (digitsToNat t)
    else Sum.inl (String.mk (t.toList.map Char.toLower))

/-- Lexicographic `≤` on character lists by code point, as Python compares
strings. -/
def charListLe : List Char → List Char → Bool
  | [], _ => true
  | _ :: _, [] => false
  | a :: as, b :: bs => if a = b then charListLe as bs else decide (a.toNat < b.toNat)

/-- `≤` on key elements.  Python never compares an `int` key element with a
`str` one (the chunk lists always alternate starting with text, so
compared positions have equal parity); the cross cases are arbitrary. -/
def keyElemLe : NatKeyElem → NatKeyElem → Bool
  | Sum.inl s, Sum.inl t => charListLe s.toList t.toList
  | Sum.inr m, Sum.inr n => decide (m ≤ n)
  | Sum.inl _, Sum.inr _ => true
  | Sum.inr _, Sum.inl _ => false

/-- Lexicographic `≤` on whole keys, as Python compares lists. -/
def keyLe : List NatKeyElem → List NatKeyElem → Bool
  | [], _ => true
  | _ :: _, [] => false
  | a :: as, b :: bs => if a = b then keyLe as bs else keyElemLe a b

/-- The comparison `combine_m4b_files` sorts with:
`m4b_files.sort(key=lambda x: natural_sort_key(os.path.basename(x)))`. -/
def fileNatLe (a b : String) : Bool :=
  keyLe (natural_sort_key (pathBasename a)) (natural_sort_key (pathBasename b))

/-- The unconditional sorting step of `combine_m4b_files` (line 473 of
`combiner.py`), applied to the file list whether it came from a glob
pattern or from a CSV manifest.  Python's `list.sort` is a stable sort by
the key, modelled by the stable `List.mergeSort`. -/
def combineFileOrder (m4b_files : List String) : List String :=
  m4b_files.mergeSort fileNatLe

/-- One chapter as decoded from `ffprobe -show_chapters` JSON before the
code's defaults are applied: `start_time`, `end_time` and the title tag
may each be absent. -/
structure RawChapter where
  start_time : Option ℚ
  end_time : Option ℚ
  title : Option String
deriving DecidableEq

/-- One chapter dict built by `extract_existing_chapters`. -/
structure ExtChapter where
  title : String
  start : ℚ
  stop : ℚ
  duration : ℚ
deriving DecidableEq

/-- `extract_existing_chapters` from `combiner.py`.  The subprocess /
JSON-parsing outcome is the explicit input: `none` models a
`CalledProcessError` or `JSONDecodeError` (caught: the function returns
`[]`), `some data` models a parsed `chapters` array.  A chapter with no
title tag defaults to `"Chapter "` plus `len(chapters) + 1` with `chapters` the
accumulator, i.e. the 1-based position. -/
def extract_existing_chapters (probe : Option (List RawChapter)) : List ExtChapter :=
  match probe with
  | none => []
  | some data =>
    data.foldl
      (fun chapters ch =>
        chapters ++
        [{ title := ch.title.getD ("Chapter " ++ Nat.repr (chapters.length + 1)),
           start := ch.start_time.getD 0, stop := ch.end_time.getD 0,
           duration := ch.end_time.getD 0 - ch.start_time.getD 0 }])
      []

/-- One output chapter of the combiner's chapter-generation loop. -/
structure ChapterOut where
  title : String
  start : ℚ
  stop : ℚ
deriving DecidableEq

/-- The per-file metadata `combine_m4b_files` works with: the probed
duration and tags of one source track, plus the track's
`ffprobe -show_chapters` outcome (consulted only when
`preserve_existing_chapters` is set). -/
structure FileMeta where
  file_path : String
  duration : ℚ
  title : String
  artist : String
  album : String
  chapter_probe : Option (List RawChapter)
deriving DecidableEq

/-- The CSV-title lookup inside the chapter loop: the first entry of
`file_title_list` whose file equals the track's path, else `""`. -/
def lookupCsvTitle (file_title_list : List (String × String)) (path : String) : String :=
  match file_title_list.find? (fun it => it.1 = path) with
  | some it => it.2
  | none => ""

/-- The chapter-generation loop of `combine_m4b_files` (lines 508–552 of
`combiner.py`), transcribed with the running 1-based index `i` and cursor
`current_time`.  `csvMode` tells whether a CSV file was supplied (only
then are CSV titles consulted). -/
def generateChaptersGo (preserve_existing_chapters csvMode : Bool)
    (file_title_list : List (String × String)) :
    List FileMeta → Nat → ℚ → List ChapterOut
  | [], _, _ => []
  | f :: rest, i, current_time =>
    let csv_title := if csvMode then lookupCsvTitle file_title_list f.file_path else ""
    let base_title := pyOrS csv_title (derive_chapter_title f.file_path i f.title)
    let these :=
      if preserve_existing_chapters then
        let existing_chapters := extract_existing_chapters f.chapter_probe
        if existing_chapters ≠ [] then
          existing_chapters.map fun ch =>
            { title := base_title ++ " - " ++ ch.title
              start := current_time + ch.start
              stop := current_time + ch.stop }
        else
          [{ title := base_title, start := current_time, stop := current_time + f.duration }]
      else
        [{ title := base_title, start := current_time, stop := current_time + f.duration }]
    these ++ generateChaptersGo preserve_existing_chapters csvMode file_title_list rest (i + 1)
      (current_time + f.duration)

/-- Chapter synthesis of `combine_m4b_files`: the loop started with index
1 and cursor 0. -/
def generateChapters (files_metadata : List FileMeta)
    (preserve_existing_chapters csvMode : Bool)
    (file_title_list : List (String × String)) : List ChapterOut :=
  generateChaptersGo preserve_existing_chapters csvMode file_title_list files_metadata 1 0

/-- Sum of the durations of the first `k` tracks (the prefix sums the
cursor runs through). -/
def dursum (files : List FileMeta) (k : Nat) : ℚ :=
  ((files.take k).map FileMeta.duration).sum

/-- The ChapterSpan invariant stated by the spec: every span has
`start < end`, the first span starts at 0, and adjacent spans meet
exactly. -/
def chapterListInvariant (chs : List ChapterOut) : Prop :=
  (∀ c ∈ chs, c.start < c.stop) ∧
  (∀ c, chs.head? = some c → c.start = 0) ∧
  List.Chain' (fun a b => a.stop = b.start) chs

/-- Python `int(q)` on a real value: truncation toward zero. -/
def pyInt (q : ℚ) : ℤ :=
  if 0 ≤ q then ⌊q⌋ else ⌈q⌉

/-- The book-level metadata dict passed to `create_chapter_metadata`
(`output_metadata` in `combine_m4b_files`); absent dict keys are the empty
string, matching `.get(k, '')`. -/
structure OutputMetadata where
  title : String
  artist : String
  album : String
  author : String
  narrator : String
  genre : String
  year : String
  description : String
deriving DecidableEq

/-- `create_chapter_metadata` from `combiner.py`: the exact text written to
the FFmpeg metadata side-channel file, transcribed write by write.  Each
book field line is emitted only when the field is truthy (non-empty);
chapter times are `int(x * 1000)`. -/
def create_chapter_metadata (chapters : List ChapterOut) (metadata : OutputMetadata) : String :=
  ";FFMETADATA1\n"
  ++ (if pyTruthy metadata.title then "title=" ++ metadata.title ++ "\n" else "")
  ++ (if pyTruthy metadata.artist then "artist=" ++ metadata.artist ++ "\n" else "")
  ++ (if pyTruthy metadata.album then "album=" ++ metadata.album ++ "\n" else "")
  ++ (if pyTruthy metadata.author then "album_artist=" ++ metadata.author ++ "\n" else "")
  ++ (if pyTruthy metadata.narrator then "composer=" ++ metadata.narrator ++ "\n" else "")
  ++ (if pyTruthy metadata.genre then "genre=" ++ metadata.genre ++ "\n" else "")
  ++ (if pyTruthy metadata.year then "date=" ++ metadata.year ++ "\n" else "")
  ++ (if pyTruthy metadata.description then "comment=" ++ metadata.description ++ "\n" else "")
  ++ "\n"
  ++ String.join (chapters.map fun chapter =>
       "[CHAPTER]\n"
       ++ "TIMEBASE=1/1000\n"
       ++ "START=" ++ Int.repr (pyInt (chapter.start * 1000)) ++ "\n"
       ++ "END=" ++ Int.repr (pyInt (chapter.stop * 1000)) ++ "\n"
       ++ "title=" ++ chapter.title ++ "\n"
       ++ "\n")

/-- The fixed key/value order the spec prescribes for book-level lines:
title, artist, album, album_artist(=author), composer(=narrator), genre,
date(=year), comment(=description). -/
def specBookFields (m : OutputMetadata) : List (String × String) :=
  [("title", m.title), ("artist", m.artist), ("album", m.album),
   ("album_artist", m.author), ("composer", m.narrator), ("genre", m.genre),
   ("date", m.year), ("comment", m.description)]

/-- The side-channel document as the spec's words describe it: the fixed
format marker; one `key=value` line per non-empty field in the fixed
order (an empty field contributes nothing); a blank line; per chapter a
`[CHAPTER]` block with `TIMEBASE=1/1000`, `START` and `END` truncated to
integer milliseconds, the title line and a trailing blank line. -/
def specSideChannelDoc (chapters : List ChapterOut) (m : OutputMetadata) : String :=
  ";FFMETADATA1\n"
  ++ String.join ((specBookFields m).map fun kv =>
       if kv.2 = "" then "" else kv.1 ++ "=" ++ kv.2 ++ "\n")
  ++ "\n"
  ++ String.join (chapters.map fun chapter =>
       "[CHAPTER]\n"
       ++ "TIMEBASE=1/1000\n"
       ++ "START=" ++ Int.repr (pyInt (chapter.start * 1000)) ++ "\n"
       ++ "END=" ++ Int.repr (pyInt (chapter.stop * 1000)) ++ "\n"
       ++ "title=" ++ chapter.title ++ "\n"
       ++ "\n")

/-- The inputs that feed the metadata-precedence logic of
`combine_m4b_files`: the caller's `output_file` and `title` arguments
(`none` = not supplied), the CSV manifest directives (`none` = key absent;
the parser never stores an empty value), and the first source track's
embedded tags. -/
structure CombineMetaInputs where
  output_file : Option String
  title : Option String
  csv_output_path : Option String
  csv_title : Option String
  csv_author : Option String
  csv_narrator : Option String
  csv_genre : Option String
  csv_year : Option String
  csv_description : Option String
  first_album : String
  first_artist : String
deriving DecidableEq

/-- Python truthiness of an optional string argument (`not title`):
falsy when `None` or empty. -/
def pyTruthyOpt : Option String → Bool
  | none => false
  | some s => pyTruthy s

/-- Lines 443–444 of `combiner.py`:
`if 'output_path' in csv_metadata: output_file = csv_metadata['output_path']`.
A CSV `output_path` directive replaces the caller's argument
unconditionally. -/
def effectiveOutputFile (i : CombineMetaInputs) : Option String :=
  match i.csv_output_path with
  | some v => some v
  | none => i.output_file

/-- Lines 445–446 of `combiner.py`:
`if 'title' in csv_metadata and not title: title = csv_metadata['title']`.
The CSV title is used only when the caller supplied no truthy title. -/
def effectiveTitle (i : CombineMetaInputs) : Option String :=
  match i.csv_title with
  | some t => if pyTruthyOpt i.title then i.title else some t
  | none => i.title

/-- Python `a or b` where `a` is an optional string and `b` a string. -/
def pyOrOS (a : Option String) (b : String) : String :=
  if pyTruthyOpt a then a.getD "" else b

/-- The `output_metadata` dict assembled at lines 574–584 of
`combiner.py`, with `title` the variable after the CSV override
(`effectiveTitle`).  `genre` uses `.get('genre', 'Audiobook')`: the
default applies only when the key is absent. -/
def buildOutputMetadata (i : CombineMetaInputs) : OutputMetadata :=
  let title := effectiveTitle i
  { title := pyOrOS title (pyOrOS i.csv_title (pyOrS i.first_album "Combined Audiobook"))
    artist := pyOrOS i.csv_author i.first_artist
    album := pyOrOS title (pyOrOS i.csv_title (pyOrS i.first_album "Combined Audiobook"))
    author := i.csv_author.getD ""
    narrator := i.csv_narrator.getD ""
    genre := i.csv_genre.getD "Audiobook"
    year := i.csv_year.getD ""
    description := i.csv_description.getD "" }

/-- Exit code of the CLI `convert` subcommand (`cmd_convert` in `cli.py`)
as a function of the validated jobs count and the `(successful, total)`
aggregate: 0 when all files converted, otherwise 1 only when no file
converted. -/
def cmd_convert_exit (jobs : Int) (successful total : Nat) : Nat :=
  if jobs < 1 then 1
  else if successful = total then 0
  else if successful = 0 then 1 else 0

/-- Exit code of the CLI `combine` subcommand given the validation
outcome and the `combine_m4b_files` result. -/
def cmd_combine_exit (argsOk success : Bool) : Nat :=
  if argsOk = false then 1
  else if success then 0 else 1

/-- Exit code of the CLI `generate-csv` subcommand. -/
def cmd_generate_csv_exit (success : Bool) : Nat :=
  if success then 0 else 1

/-- How a dispatched subcommand ended, as seen by `main`'s
`try`/`except`: a normal return, a `KeyboardInterrupt`, or another
exception. -/
inductive CmdOutcome where
  | normal (code : Nat)
  | interrupt
  | exception
deriving DecidableEq

/-- `main` from `cli.py`: no command prints help and returns 1; a
`KeyboardInterrupt` returns 130; any other exception returns 1; otherwise
the subcommand's code is returned. -/
def cli_main_exit (command : Option String) (outcome : CmdOutcome) : Nat :=
  match command with
  | none => 1
  | some _ =>
    match outcome with
    | CmdOutcome.normal code => code
    | CmdOutcome.interrupt => 130
    | CmdOutcome.exception => 1

/-- One conversion job of `convert-all-to-m4b.py`, with the file-system
and transcoder effects made explicit: whether the computed output path
already exists, and what `convert_to_m4b` would return if invoked. -/
structure ConvJob where
  input_file : String
  output_exists : Bool
  convert_ok : Bool
deriving DecidableEq

/-- Result of `process_single_file`, extended with an effect trace:
whether the FFmpeg transcoder was invoked (and hence whether anything
could have been written at the output path). -/
structure ProcResult where
  success : Bool
  input_file : String
  ffmpeg_invoked : Bool
deriving DecidableEq

/-- `process_single_file` (lines 163–170 of `convert-all-to-m4b.py`): when
the output path exists the file is skipped — `return False, input_file` —
without calling `convert_to_m4b`; otherwise the conversion result is
returned. -/
def process_single_file (j : ConvJob) : ProcResult :=
  if j.output_exists then
    { success := false, input_file := j.input_file, ffmpeg_invoked := false }
  else
    { success := j.convert_ok, input_file := j.input_file, ffmpeg_invoked := true }

/-- The `(successful_conversions, total_files)` aggregate computed by
`convert_all_to_m4b` over its job list (the sequential loop; the
thread-pool path updates the same two counters per completed job). -/
def convert_all_to_m4b (jobs : List ConvJob) : Nat × Nat :=
  (jobs.foldl (fun successful j =>
      if (process_single_file j).success then successful + 1 else successful) 0,
   jobs.length)

/-- Split a character list at the first occurrence of `sep` (Python
`s.split(sep, 1)` when `sep` occurs; the guard `sep in s` is checked by
the caller). -/
def splitOnce (sep : Char) (cs : List Char) : List Char × List Char :=
  (cs.takeWhile (fun c => c ≠ sep), (cs.dropWhile (fun c => c ≠ sep)).drop 1)

/-- Python dict assignment `md[k] = v` on an association list: the last
write wins on lookup. -/
def dictSet (md : List (String × String)) (k v : String) : List (String × String) :=
  (k, v) :: md.filter (fun p => p.1 ≠ k)

/-- Python `md.get(k)` on the association list. -/
def dictGet (md : List (String × String)) (k : String) : Option String :=
  (md.find? (fun p => p.1 = k)).map (fun p => p.2)

/-- The metadata-header loop of `parse_csv_input` (`for i, line in
enumerate(lines)`), carrying the running index, the metadata dict and
`data_start_idx`.  A `#`-line with a `,` (checked first) or `:` stores the
lower-cased key and the value when both are non-empty after stripping and
advances `data_start_idx`; a `#`-line with neither separator is passed over
without advancing; the first non-empty non-`#` line breaks; empty lines are
passed over. -/
def parseMetaAux : List String → Nat → List (String × String) → Nat →
    List (String × String) × Nat
  | [], _, md, dsi => (md, dsi)
  | line :: rest, i, md, dsi =>
    match (pyStrip line).toList with
    | '#' :: body =>
      if body.contains ',' ∨ body.contains ':' then
        let kv := if body.contains ',' then splitOnce ',' body else splitOnce ':' body
        let key := String.mk ((pyStrip (String.mk kv.1)).toList.map Char.toLower)
        let value := pyStrip (String.mk kv.2)
        let md := if key ≠ "" ∧ value ≠ "" then dictSet md key value else md
        parseMetaAux rest (i + 1) md (i + 1)
      else
        parseMetaAux rest (i + 1) md dsi
    | [] => parseMetaAux rest (i + 1) md dsi
    | _ => (md, dsi)

/-- Strip a trailing line terminator (`\n` or `\r\n`) from one line, as
the `csv` reader does when handed `readlines()` output. -/
def stripNewline (s : String) : String :=
  String.mk ((s.toList.reverse.dropWhile (fun c => c = '\n' ∨ c = '\r')).reverse)

/-- Helper for `splitComma`. -/
def splitCommaAux : List Char → List Char → List String
  | [], cur => [String.mk cur.reverse]
  | c :: cs, cur =>
    if c = ',' then String.mk cur.reverse :: splitCommaAux cs []
    else splitCommaAux cs (c :: cur)

/-- Split a CSV record into its cells at commas.  This models the `csv`
module on the quote-free fragment the manifests in this repository use
(no quoted cells containing commas). -/
def splitComma (s : String) : List String :=
  splitCommaAux s.toList []

/-- `csv.DictReader` cell access `row[field]` / `row.get(field, ...)`:
`none` when `field` is not a fieldname (the key is absent from the row
dict); `some none` when the field exists but this row has fewer cells
(DictReader fills the missing values with its `restval`, `None`);
`some (some v)` otherwise. -/
def rowGet (fieldnames cells : List String) (field : String) : Option (Option String) :=
  match fieldnames.findIdx? (fun f => f = field) with
  | none => none
  | some i => some cells[i]?

/-- Decidable equality of `Except` values, used to evaluate the parser on
concrete manifests. -/
instance {ε α : Type} [DecidableEq ε] [DecidableEq α] : DecidableEq (Except ε α) := by
  intro a b
  cases a <;> cases b
  case error.error e f =>
    exact if h : e = f then Decidable.isTrue (by rw [h])
      else Decidable.isFalse (by simp [h])
  case error.ok e v => exact Decidable.isFalse (by simp)
  case ok.error v e => exact Decidable.isFalse (by simp)
  case ok.ok v w =>
    exact if h : v = w then Decidable.isTrue (by rw [h])
      else Decidable.isFalse (by simp [h])

/-- One parsed manifest entry: resolved file path and title override. -/
structure CsvEntry where
  file : String
  title : String
deriving DecidableEq

/-- The ways `parse_csv_input` can abort.  The first four correspond to
its explicit `ValueError`s; `noneTypeHasNoStrip` is the uncaught
`AttributeError` raised by `None.strip()` when a data row has fewer cells
than the header, so that `row['file']` or `row.get('title', '')` yields
DictReader's `restval` `None`. -/
inductive CsvParseFatal where
  | noDataRows
  | noNonEmptyRows
  | missingFileColumn
  | noValidFiles
  | noneTypeHasNoStrip
deriving DecidableEq

/-- `os.path.isabs`. -/
def isAbsPath (p : String) : Bool :=
  match p.toList with
  | '/' :: _ => true
  | _ => false

/-- The accepted audio-container extensions of the combiner. -/
def acceptedSuffixes : List String := [".m4b", ".m4a"]

/-- The row loop of `parse_csv_input`: a row with an empty `file` cell is
passed over silently; a row whose resolved file does not exist, or whose
extension is not accepted, is skipped with a warning; a surviving row is
appended with its stripped title.  `fsExists` is the `os.path.exists`
oracle; `os.path.abspath` is modelled as the identity on the
already-absolute resolved paths. -/
def processRows (fieldnames : List String) (csvDir : String)
    (fsExists : String → Bool) :
    List (List String) → List CsvEntry → Except CsvParseFatal (List CsvEntry)
  | [], file_list => Except.ok file_list
  | cells :: rest, file_list =>
    if "file" ∈ fieldnames then
      match rowGet fieldnames cells "file" with
      | none => Except.error CsvParseFatal.missingFileColumn
      | some none => Except.error CsvParseFatal.noneTypeHasNoStrip
      | some (some rawFile) =>
        let file_path := pyStrip rawFile
        if file_path = "" then processRows fieldnames csvDir fsExists rest file_list
        else
          let file_path := if isAbsPath file_path then file_path
                           else csvDir ++ "/" ++ file_path
          if fsExists file_path = false then
            processRows fieldnames csvDir fsExists rest file_list
          else if (acceptedSuffixes.contains (pathSuffixLower file_path)) = false then
            processRows fieldnames csvDir fsExists rest file_list
          else
            match rowGet fieldnames cells "title" with
            | none =>
              processRows fieldnames csvDir fsExists rest
                (file_list ++ [{ file := file_path, title := "" }])
            | some none => Except.error CsvParseFatal.noneTypeHasNoStrip
            | some (some t) =>
              processRows fieldnames csvDir fsExists rest
                (file_list ++ [{ file := file_path, title := pyStrip t }])
    else Except.error CsvParseFatal.missingFileColumn

/-- `parse_csv_input` from `combiner.py`, over the already-read lines of
the manifest (`lines = f.readlines()`), the manifest's directory and the
file-existence oracle: parse the metadata block, slice the data lines,
fail when the slice is empty or all blank, read the header record, run
the rows, and fail when no valid entry survived. -/
def parse_csv_input (lines : List String) (csvDir : String)
    (fsExists : String → Bool) :
    Except CsvParseFatal (List CsvEntry × List (String × String)) :=
  let meta := parseMetaAux lines 0 [] 0
  let csv_data := lines.drop meta.2
  if csv_data = [] then Except.error CsvParseFatal.noDataRows
  else
    match csv_data.filter (fun l => pyStrip l ≠ "") with
    | [] => Except.error CsvParseFatal.noNonEmptyRows
    | header :: rows =>
      let fieldnames := splitComma (stripNewline header)
      match processRows fieldnames csvDir fsExists
          (rows.map (fun r => splitComma (stripNewline r))) [] with
      | Except.error e => Except.error e
      | Except.ok file_list =>
        if file_list = [] then Except.error CsvParseFatal.noValidFiles
        else Except.ok (file_list, meta.1)

/-! ### Helper lemmas about the chapter-generation loop -/

/-- With `preserve_existing_chapters = False` the loop emits exactly one
chapter per file, structurally a cons. -/
lemma genGo_false_cons (cm : Bool) (ftl : List (String × String))
    (f : FileMeta) (rest : List FileMeta) (i : Nat) (t : ℚ) :
    generateChaptersGo false cm ftl (f :: rest) i t =
      { title := pyOrS (if cm then lookupCsvTitle ftl f.file_path else "")
                   (derive_chapter_title f.file_path i f.title)
        start := t, stop := t + f.duration }
        :: generateChaptersGo false cm ftl rest (i + 1) (t + f.duration) := by
  simp [generateChaptersGo]

lemma dursum_zero (files : List FileMeta) : dursum files 0 = 0 := by
  simp [dursum]

lemma dursum_cons_succ (f : FileMeta) (rest : List FileMeta) (k : Nat) :
    dursum (f :: rest) (k + 1) = f.duration + dursum rest k := by
  simp [dursum]

lemma genGo_false_length (cm : Bool) (ftl : List (String × String)) :
    ∀ (fs : List FileMeta) (i : Nat) (t : ℚ),
      (generateChaptersGo false cm ftl fs i t).length = fs.length := by
  intro fs
  induction fs with
  | nil => intro i t; simp [generateChaptersGo]
  | cons f rest ih => intro i t; rw [genGo_false_cons]; simp [ih]

/-- The span of the `k`-th chapter emitted with
`preserve_existing_chapters = False`: prefix sums of the durations,
shifted by the initial cursor `t`. -/
lemma genGo_false_getElem (cm : Bool) (ftl : List (String × String)) :
    ∀ (fs : List FileMeta) (i : Nat) (t : ℚ) (k : Nat),
      ((generateChaptersGo false cm ftl fs i t)[k]?).map (fun c => (c.start, c.stop)) =
        if k < fs.length then some (t + dursum fs k, t + dursum fs (k + 1)) else none := by
  intro fs
  induction fs with
  | nil => intro i t k; simp [generateChaptersGo]
  | cons f rest ih =>
    intro i t k
    rw [genGo_false_cons]
    cases k with
    | zero => simp [dursum_zero, dursum_cons_succ]
    | succ k =>
      rw [List.getElem?_cons_succ, ih (i + 1) (t + f.duration) k]
      by_cases hk : k < rest.length
      · simp only [hk, if_pos, List.length_cons, Nat.succ_lt_succ_iff, if_pos hk,
          dursum_cons_succ]
        ring_nf
      · simp [hk]

lemma genGo_false_head_start (cm : Bool) (ftl : List (String × String))
    (fs : List FileMeta) (i : Nat) (t : ℚ) (c : ChapterOut)
    (h : (generateChaptersGo false cm ftl fs i t).head? = some c) : c.start = t := by
  cases fs with
  | nil => simp [generateChaptersGo] at h
  | cons f rest =>
    rw [genGo_false_cons] at h
    simp at h
    rw [← h]

lemma genGo_false_lt (cm : Bool) (ftl : List (String × String)) :
    ∀ (fs : List FileMeta), (∀ f ∈ fs, 0 < f.duration) → ∀ (i : Nat) (t : ℚ),
      ∀ c ∈ generateChaptersGo false cm ftl fs i t, c.start < c.stop := by
  intro fs
  induction fs with
  | nil => intro _ i t c hc; simp [generateChaptersGo] at hc
  | cons f rest ih =>
    intro hpos i t c hc
    rw [genGo_false_cons] at hc
    rcases List.mem_cons.mp hc with hc | hc
    · subst hc
      have := hpos f (List.mem_cons_self f rest)
      simpa using this
    · exact ih (fun g hg => hpos g (List.mem_cons_of_mem f hg)) (i + 1) (t + f.duration) c hc

lemma genGo_false_chain (cm : Bool) (ftl : List (String × String)) :
    ∀ (fs : List FileMeta) (i : Nat) (t : ℚ),
      List.Chain' (fun a b => a.stop = b.start) (generateChaptersGo false cm ftl fs i t) := by
  intro fs
  induction fs with
  | nil => intro i t; simp [generateChaptersGo]
  | cons f rest ih =>
    intro i t
    rw [genGo_false_cons]
    rw [List.chain'_cons']
    refine ⟨?_, ih (i + 1) (t + f.duration)⟩
    intro b hb
    exact (genGo_false_head_start cm ftl rest (i + 1) (t + f.duration) b hb).symm

/-- A source track with only path and duration, as the witnesses use. -/
def mkTrack (p : String) (d : ℚ) : FileMeta :=
  { file_path := p, duration := d, title := "", artist := "", album := "",
    chapter_probe := none }

/-- C1: combining N tracks with `preserve_existing_chapters = False`
produces exactly N chapter spans; span k runs from the prefix sum
d1+…+dk-1 to the prefix sum d1+…+dk, so span 0 starts at 0, adjacent
spans meet exactly, and the last span ends at the total duration.  No
positivity of the durations is assumed: a zero-duration track keeps its
own zero-length span. -/
theorem combine_default_spans_are_duration_prefix_sums
    (files : List FileMeta) (cm : Bool) (ftl : List (String × String))
    (hne : files ≠ []) :
    (generateChapters files false cm ftl).length = files.length ∧
    (∀ k, k < files.length →
      ((generateChapters files false cm ftl)[k]?).map (fun c => (c.start, c.stop)) =
        some (dursum files k, dursum files (k + 1))) ∧
    ((generateChapters files false cm ftl)[0]?).map ChapterOut.start = some 0 ∧
    (∀ k, k + 1 < files.length →
      ((generateChapters files false cm ftl)[k]?).map ChapterOut.stop =
        ((generateChapters files false cm ftl)[k + 1]?).map ChapterOut.start) ∧
    ((generateChapters files false cm ftl)[files.length - 1]?).map ChapterOut.stop =
      some (dursum files files.length) := by
  have hpair : ∀ k, ((generateChapters files false cm ftl)[k]?).map
      (fun c => (c.start, c.stop)) =
      if k < files.length then some (dursum files k, dursum files (k + 1)) else none := by
    intro k
    have h := genGo_false_getElem cm ftl files 1 0 k
    simpa [generateChapters] using h
  have hget : ∀ k, k < files.length → ∃ c,
      (generateChapters files false cm ftl)[k]? = some c ∧
      c.start = dursum files k ∧ c.stop = dursum files (k + 1) := by
    intro k hk
    have h := hpair k
    rw [if_pos hk] at h
    rcases Option.map_eq_some'.mp h with ⟨c, hc, hcc⟩
    refine ⟨c, hc, ?_, ?_⟩
    · simpa using congrArg Prod.fst hcc
    · simpa using congrArg Prod.snd hcc
  have hlenpos : 0 < files.length := List.length_pos.mpr hne
  refine ⟨?_, ?_, ?_, ?_, ?_⟩
  · simpa [generateChapters] using genGo_false_length cm ftl files 1 0
  · intro k hk
    rw [hpair k, if_pos hk]
  · rcases hget 0 hlenpos with ⟨c, hc, hs, _⟩
    rw [hc]
    simp [hs, dursum_zero]
  · intro k hk
    rcases hget k (Nat.lt_of_succ_lt hk) with ⟨c, hc, _, hcs⟩
    rcases hget (k + 1) hk with ⟨c', hc', hcs', _⟩
    rw [hc, hc']
    simp [hcs, hcs']
  · rcases hget (files.length - 1) (Nat.sub_lt hlenpos Nat.one_pos) with ⟨c, hc, _, hcs⟩
    rw [hc]
    simp only [Option.map_some']
    rw [hcs, Nat.sub_add_cancel (Nat.one_le_iff_ne_zero.mpr (Nat.pos_iff_ne_zero.mp hlenpos))]

/-- The spec's three-track scenario plus a zero-duration track, for the
witnesses. -/
def witnessTracks : List FileMeta :=
  [mkTrack "/b/part1.m4b" 2, mkTrack "/b/part2.m4b" (3/2),
   mkTrack "/b/part3.m4b" (5/2), mkTrack "/b/part4.m4b" 0]

/-- Witness for C1 at the spec's concrete scenario (durations 2, 1.5,
2.5 and a fourth zero-duration track): 4 spans, span 2 = [3.5, 6), and
the zero-duration track keeps span 3 = [6, 6). -/
theorem combine_default_spans_witness :
    (generateChapters witnessTracks false false []).length = 4 ∧
    ((generateChapters witnessTracks false false [])[2]?).map (fun c => (c.start, c.stop)) =
      some (7/2, 6) ∧
    ((generateChapters witnessTracks false false [])[3]?).map (fun c => (c.start, c.stop)) =
      some (6, 6) := by
  have h := combine_default_spans_are_duration_prefix_sums witnessTracks false [] (by decide)
  refine ⟨?_, ?_, ?_⟩
  · rw [h.1]; decide
  · rw [h.2.1 2 (by decide)]
    norm_num [witnessTracks, dursum, mkTrack]
  · rw [h.2.1 3 (by decide)]
    norm_num [witnessTracks, dursum, mkTrack]

/-- C2 counterexample: with `preserve_existing_chapters = True`, a single
10-second track whose embedded chapter list is `[2, 5)` yields the single
output span `[2, 5)` — its start is 2, not 0, so the claimed invariant
fails (the embedded spans are only offset, never stretched to partition
the track). -/
theorem preserve_mode_violates_span_invariant :
    ¬ chapterListInvariant
        (generateChapters
          [{ file_path := "/x/a.m4b", duration := 10, title := "T", artist := "",
             album := "", chapter_probe := some [⟨some 2, some 5, some "Intro"⟩] }]
          true false []) := by
  have h : generateChapters
      [{ file_path := "/x/a.m4b", duration := 10, title := "T", artist := "",
         album := "", chapter_probe := some [⟨some 2, some 5, some "Intro"⟩] }]
      true false [] = [{ title := "T - Intro", start := 2, stop := 5 }] := by
    norm_num [generateChapters, generateChaptersGo, extract_existing_chapters,
      derive_chapter_title, pyOrS, pyTruthy, pyStrip]
    decide
  rw [h]
  rintro ⟨-, h0, -⟩
  have h2 := h0 { title := "T - Intro", start := 2, stop := 5 } rfl
  norm_num at h2

/-- C2 amended: the ChapterSpan invariant (start < end, first start 0,
adjacent spans meet) holds for every chapter list synthesized with
`preserve_existing_chapters = False` from tracks of positive duration;
with preserved embedded chapters (or zero-duration tracks) it can fail. -/
theorem combine_default_mode_span_invariant
    (files : List FileMeta) (cm : Bool) (ftl : List (String × String))
    (hpos : ∀ f ∈ files, 0 < f.duration) :
    chapterListInvariant (generateChapters files false cm ftl) := by
  unfold chapterListInvariant generateChapters
  refine ⟨genGo_false_lt cm ftl files hpos 1 0, ?_, genGo_false_chain cm ftl files 1 0⟩
  intro c hc
  exact genGo_false_head_start cm ftl files 1 0 c hc

/-- Witness for the amended C2 at the spec's scenario. -/
theorem combine_default_mode_span_invariant_witness :
    chapterListInvariant
      (generateChapters
        [mkTrack "/b/part1.m4b" 2, mkTrack "/b/part2.m4b" (3/2),
         mkTrack "/b/part3.m4b" (5/2)] false false []) := by
  refine combine_default_mode_span_invariant _ false [] ?_
  intro f hf
  simp only [List.mem_cons, List.not_mem_nil, or_false] at hf
  rcases hf with h | h | h <;> (rw [h]; norm_num [mkTrack])

/-- C4 counterexample: the caller passes `output_file = "/out/cli.m4b"`
and the manifest carries `#output_path,/out/csv.m4b`; `combine_m4b_files`
uses the CSV value, so the caller argument does NOT take precedence for
`output_path`. -/
theorem csv_output_path_overrides_caller :
    effectiveOutputFile
        { output_file := some "/out/cli.m4b", title := none,
          csv_output_path := some "/out/csv.m4b", csv_title := none,
          csv_author := none, csv_narrator := none, csv_genre := none,
          csv_year := none, csv_description := none,
          first_album := "", first_artist := "" } = some "/out/csv.m4b" ∧
    (some "/out/csv.m4b" : Option String) ≠ some "/out/cli.m4b" := by
  constructor
  · rfl
  · decide

/-- C4 amended: the claimed precedence (caller > CSV > first track tag >
default) holds for `title` (and `artist`), but for `output_path` the CSV
directive unconditionally overrides the caller argument. -/
theorem book_metadata_precedence (i : CombineMetaInputs) :
    (∀ v, i.csv_output_path = some v → effectiveOutputFile i = some v) ∧
    (i.csv_output_path = none → effectiveOutputFile i = i.output_file) ∧
    (∀ c, i.title = some c → c ≠ "" → (buildOutputMetadata i).title = c) ∧
    (pyTruthyOpt i.title = false → ∀ t, i.csv_title = some t → t ≠ "" →
      (buildOutputMetadata i).title = t) ∧
    (pyTruthyOpt i.title = false → i.csv_title = none → i.first_album ≠ "" →
      (buildOutputMetadata i).title = i.first_album) ∧
    (pyTruthyOpt i.title = false → i.csv_title = none → i.first_album = "" →
      (buildOutputMetadata i).title = "Combined Audiobook") ∧
    (∀ a, i.csv_author = some a → a ≠ "" → (buildOutputMetadata i).artist = a) ∧
    (i.csv_author = none → (buildOutputMetadata i).artist = i.first_artist) := by
  refine ⟨?_, ?_, ?_, ?_, ?_, ?_, ?_, ?_⟩
  · intro v hv
    simp [effectiveOutputFile, hv]
  · intro hv
    simp [effectiveOutputFile, hv]
  · intro c hc hne
    have ht : pyTruthyOpt i.title = true := by simp [pyTruthyOpt, hc, pyTruthy, hne]
    cases hcsv : i.csv_title <;>
      simp [buildOutputMetadata, effectiveTitle, hcsv, ht, pyOrOS, hc, pyTruthyOpt,
        pyTruthy, hne]
  · intro ht t hcsv hne
    simp only [buildOutputMetadata, effectiveTitle, hcsv, ht]
    simp [pyOrOS, pyTruthyOpt, pyTruthy, hne]
  · intro ht hcsv hne
    cases htitle : i.title with
    | none =>
      simp [buildOutputMetadata, effectiveTitle, hcsv, htitle, pyOrOS, pyTruthyOpt,
        pyOrS, pyTruthy, hne]
    | some s =>
      have hs : s = "" := by
        by_contra hs
        simp [pyTruthyOpt, htitle, pyTruthy, hs] at ht
      subst hs
      simp [buildOutputMetadata, effectiveTitle, hcsv, htitle, pyOrOS, pyTruthyOpt,
        pyOrS, pyTruthy, hne]
  · intro ht hcsv hne
    cases htitle : i.title with
    | none =>
      simp [buildOutputMetadata, effectiveTitle, hcsv, htitle, pyOrOS, pyTruthyOpt,
        pyOrS, pyTruthy, hne]
    | some s =>
      have hs : s = "" := by
        by_contra hs
        simp [pyTruthyOpt, htitle, pyTruthy, hs] at ht
      subst hs
      simp [buildOutputMetadata, effectiveTitle, hcsv, htitle, pyOrOS, pyTruthyOpt,
        pyOrS, pyTruthy, hne]
  · intro a ha hne
    simp [buildOutputMetadata, pyOrOS, ha, pyTruthyOpt, pyTruthy, hne]
  · intro ha
    simp [buildOutputMetadata, pyOrOS, ha, pyTruthyOpt]

/-- Witness for the amended C4: a caller title `"CLI"` beats the manifest
title `"CSV"`, the manifest `output_path` beats the caller output, and
the manifest author feeds `artist`. -/
theorem book_metadata_precedence_witness :
    effectiveOutputFile
        { output_file := some "/out/cli.m4b", title := some "CLI",
          csv_output_path := some "/out/csv.m4b", csv_title := some "CSV",
          csv_author := some "Auth", csv_narrator := none, csv_genre := none,
          csv_year := none, csv_description := none,
          first_album := "Album", first_artist := "Artist" } = some "/out/csv.m4b" ∧
    (buildOutputMetadata
        { output_file := some "/out/cli.m4b", title := some "CLI",
          csv_output_path := some "/out/csv.m4b", csv_title := some "CSV",
          csv_author := some "Auth", csv_narrator := none, csv_genre := none,
          csv_year := none, csv_description := none,
          first_album := "Album", first_artist := "Artist" }).title = "CLI" ∧
    (buildOutputMetadata
        { output_file := some "/out/cli.m4b", title := some "CLI",
          csv_output_path := some "/out/csv.m4b", csv_title := some "CSV",
          csv_author := some "Auth", csv_narrator := none, csv_genre := none,
          csv_year := none, csv_description := none,
          first_album := "Album", first_artist := "Artist" }).artist = "Auth" := by
  have h := book_metadata_precedence
    { output_file := some "/out/cli.m4b", title := some "CLI",
      csv_output_path := some "/out/csv.m4b", csv_title := some "CSV",
      csv_author := some "Auth", csv_narrator := none, csv_genre := none,
      csv_year := none, csv_description := none,
      first_album := "Album", first_artist := "Artist" }
  exact ⟨h.1 "/out/csv.m4b" rfl, h.2.2.1 "CLI" rfl (by decide),
    h.2.2.2.2.2.2.1 "Auth" rfl (by decide)⟩

/-- C5 counterexample: `convert` with 3 of 5 files successful — a batch
with failures — exits with code 0 (`cli.py` line 53 returns 1 only when
no file succeeded), so a nonzero code is not returned on every failure. -/
theorem convert_partial_failure_exits_zero :
    cmd_convert_exit 1 3 5 = 0 ∧ (3 : Nat) ≠ 5 := by
  constructor
  · rfl
  · decide

/-- C5 amended: `convert` exits 0 iff all files succeeded or at least one
did (so partial success exits 0, and 1 is returned only when nothing
succeeded); `combine` and `generate-csv` exit 0 iff they succeeded; a
`KeyboardInterrupt` in any dispatched subcommand exits with the
distinguished code 130. -/
theorem cli_exit_codes (jobs : Int) (s t : Nat) (success : Bool) (c : String) :
    (1 ≤ jobs → (cmd_convert_exit jobs s t = 0 ↔ (s = t ∨ s ≠ 0))) ∧
    (cmd_combine_exit true success = 0 ↔ success = true) ∧
    (cmd_generate_csv_exit success = 0 ↔ success = true) ∧
    cli_main_exit (some c) CmdOutcome.interrupt = 130 ∧
    cli_main_exit (some c) CmdOutcome.exception = 1 := by
  refine ⟨?_, ?_, ?_, rfl, rfl⟩
  · intro hj
    have hj' : ¬ jobs < 1 := by omega
    unfold cmd_convert_exit
    rw [if_neg hj']
    by_cases hst : s = t
    · simp [hst]
    · by_cases hs : s = 0
      · simp [hst, hs]
      · simp [hst, hs]
  · cases success <;> simp [cmd_combine_exit]
  · cases success <;> simp [cmd_generate_csv_exit]

/-- Witness for the amended C5: concrete exit codes, including partial
success (3 of 5) exiting 0 and zero successes exiting 1. -/
theorem cli_exit_codes_witness :
    (cmd_convert_exit 1 3 5 = 0 ↔ ((3 : Nat) = 5 ∨ (3 : Nat) ≠ 0)) ∧
    (cmd_combine_exit true false = 0 ↔ false = true) ∧
    cli_main_exit (some "convert") CmdOutcome.interrupt = 130 := by
  have h := cli_exit_codes 1 3 5 false "convert"
  exact ⟨h.1 (by decide), h.2.1, h.2.2.2.1⟩

/-- C10: a conversion job whose computed output path already exists is
skipped: FFmpeg is not invoked (so the existing file is untouched) and
the job reports failure; the `(successful, total)` aggregate therefore
counts exactly the freshly-converted files as successes while
pre-existing outputs count only toward the total. -/
theorem existing_output_counted_as_failure (jobs : List ConvJob) :
    (∀ j ∈ jobs, j.output_exists = true →
      process_single_file j =
        { success := false, input_file := j.input_file, ffmpeg_invoked := false }) ∧
    convert_all_to_m4b jobs =
      (jobs.countP (fun j => !j.output_exists && j.convert_ok), jobs.length) := by
  constructor
  · intro j _ hj
    simp [process_single_file, hj]
  · unfold convert_all_to_m4b
    have hfold : ∀ (l : List ConvJob) (n : Nat),
        l.foldl (fun successful j =>
          if (process_single_file j).success then successful + 1 else successful) n =
        n + l.countP (fun j => !j.output_exists && j.convert_ok) := by
      intro l
      induction l with
      | nil => intro n; simp
      | cons j rest ih =>
        intro n
        have hsucc : (process_single_file j).success = (!j.output_exists && j.convert_ok) := by
          cases hj : j.output_exists <;> simp [process_single_file, hj]
        simp only [List.foldl_cons, List.countP_cons, hsucc]
        cases hd : (!j.output_exists && j.convert_ok) <;> (simp [ih]; try omega)
    rw [hfold jobs 0, Nat.zero_add]

/-- Witness for C10: of two jobs, the first has a pre-existing output
(skipped, counted failed), the second converts; the aggregate is (1, 2). -/
theorem existing_output_counted_as_failure_witness :
    process_single_file { input_file := "a.mp3", output_exists := true, convert_ok := true } =
      { success := false, input_file := "a.mp3", ffmpeg_invoked := false } ∧
    convert_all_to_m4b
        [{ input_file := "a.mp3", output_exists := true, convert_ok := true },
         { input_file := "b.mp3", output_exists := false, convert_ok := true }] = (1, 2) := by
  have h := existing_output_counted_as_failure
    [{ input_file := "a.mp3", output_exists := true, convert_ok := true },
     { input_file := "b.mp3", output_exists := false, convert_ok := true }]
  refine ⟨h.1 _ (by decide) rfl, ?_⟩
  rw [h.2]
  decide

/-- C6 counterexample: `" Existing "` trimmed is non-empty, yet
`derive_chapter_title` returns the trimmed `"Existing"`, not the
existing title verbatim (`combiner.py` line 186 returns
`existing_title.strip()`). -/
theorem derive_title_not_verbatim :
    pyStrip " Existing " ≠ "" ∧
    derive_chapter_title "x" 1 " Existing " ≠ " Existing " := by
  constructor
  · decide
  · decide

/-- C6 amended: a non-empty-after-trim existing title is returned
trimmed (not verbatim); otherwise the filename stem is cleaned (strip
chapter/part token, leading digits and separators, replace `_`/`-` by
spaces, collapse whitespace, title-case) with fallback
`"Chapter "` plus the position — witnessed by the spec's three examples. -/
theorem derive_chapter_title_spec :
    (∀ (fp : String) (i : Nat) (ex : String), pyTruthy (pyStrip ex) = true →
      derive_chapter_title fp i ex = pyStrip ex) ∧
    derive_chapter_title "Chapter_03_The_Awakening" 3 "" = "The Awakening" ∧
    derive_chapter_title "09" 9 "" = "Chapter 9" ∧
    derive_chapter_title "x" 1 "Existing" = "Existing" ∧
    derive_chapter_title "x" 1 " Existing " = "Existing" := by
  refine ⟨?_, by decide, by decide, by decide, by decide⟩
  intro fp i ex h
  simp [derive_chapter_title, h]

/-- Witness for the amended C6: a padded existing title is returned
trimmed. -/
theorem derive_chapter_title_spec_witness :
    derive_chapter_title "file.m4b" 2 "  Kept  " = pyStrip "  Kept  " :=
  derive_chapter_title_spec.1 "file.m4b" 2 "  Kept  " (by decide)

/-- The list `extract_existing_chapters` builds from the `k`-th raw
chapter on, when the accumulator already holds `n` chapters. -/
def extBuild : List RawChapter → Nat → List ExtChapter
  | [], _ => []
  | ch :: rest, n =>
    { title := ch.title.getD ("Chapter " ++ Nat.repr (n + 1)),
      start := ch.start_time.getD 0, stop := ch.end_time.getD 0,
      duration := ch.end_time.getD 0 - ch.start_time.getD 0 } :: extBuild rest (n + 1)

lemma extract_foldl_general (data : List RawChapter) :
    ∀ acc : List ExtChapter,
      data.foldl
        (fun chapters ch =>
          chapters ++
            [{ title := ch.title.getD ("Chapter " ++ Nat.repr (chapters.length + 1)),
               start := ch.start_time.getD 0, stop := ch.end_time.getD 0,
               duration := ch.end_time.getD 0 - ch.start_time.getD 0 }]) acc
      = acc ++ extBuild data acc.length := by
  induction data with
  | nil => intro acc; simp [extBuild]
  | cons ch rest ih =>
    intro acc
    simp only [List.foldl_cons]
    rw [ih]
    simp [extBuild]

lemma extract_some_eq (data : List RawChapter) :
    extract_existing_chapters (some data) = extBuild data 0 := by
  have h := extract_foldl_general data []
  simpa [extract_existing_chapters] using h

lemma extBuild_length : ∀ (data : List RawChapter) (n : Nat),
    (extBuild data n).length = data.length := by
  intro data
  induction data with
  | nil => intro n; simp [extBuild]
  | cons ch rest ih => intro n; simp [extBuild, ih]

lemma extBuild_getElem_title : ∀ (data : List RawChapter) (n k : Nat) (rc : RawChapter),
    data[k]? = some rc → rc.title = none →
    ((extBuild data n)[k]?).map ExtChapter.title = some ("Chapter " ++ Nat.repr (n + k + 1)) := by
  intro data
  induction data with
  | nil => intro n k rc h _; simp at h
  | cons ch rest ih =>
    intro n k rc h ht
    cases k with
    | zero =>
      simp only [List.getElem?_cons_zero, Option.some.injEq] at h
      subst h
      simp [extBuild, ht]
    | succ k =>
      simp only [List.getElem?_cons_succ] at h
      have h2 := ih (n + 1) k rc h ht
      have harg : n + 1 + k + 1 = n + (k + 1) + 1 := by omega
      rw [harg] at h2
      simpa [extBuild] using h2

/-- C8: chapter decoding returns the empty list when the probe failed
(subprocess error or malformed JSON) and when the container reports no
chapters; it returns one chapter per raw chapter, and a chapter with no
title tag gets the default of `"Chapter "` plus the 1-based index. -/
theorem extract_chapters_defaults :
    extract_existing_chapters none = [] ∧
    extract_existing_chapters (some []) = [] ∧
    (∀ data : List RawChapter, (extract_existing_chapters (some data)).length = data.length) ∧
    (∀ (data : List RawChapter) (k : Nat) (rc : RawChapter),
      data[k]? = some rc → rc.title = none →
      ((extract_existing_chapters (some data))[k]?).map ExtChapter.title =
        some ("Chapter " ++ Nat.repr (k + 1))) := by
  refine ⟨rfl, rfl, ?_, ?_⟩
  · intro data
    rw [extract_some_eq]
    exact extBuild_length data 0
  · intro data k rc h ht
    rw [extract_some_eq]
    have h2 := extBuild_getElem_title data 0 k rc h ht
    simpa using h2

/-- Witness for C8: a probed chapter list with one untitled chapter
yields the default title `"Chapter 1"`. -/
theorem extract_chapters_defaults_witness :
    ((extract_existing_chapters
        (some [{ start_time := some 0, end_time := some 2, title := none }]))[0]?).map
      ExtChapter.title = some "Chapter 1" := by
  have h := extract_chapters_defaults.2.2.2
    [{ start_time := some 0, end_time := some 2, title := none }] 0
    { start_time := some 0, end_time := some 2, title := none } rfl rfl
  rw [h]
  decide

lemma truthyIf (v A : String) :
    (if pyTruthy v = true then A else "") = (if v = "" then "" else A) := by
  by_cases h : v = "" <;> simp [pyTruthy, h]

lemma mergeKey (k km : String) (h : k ++ "=" = km) :
    ∀ v : String, k ++ ("=" ++ v) = km ++ v := by
  intro v
  rw [← String.append_assoc, h]

/-- C7: the encoded side-channel document is exactly what the spec
describes — the fixed format marker, one `key=value` line per non-empty
book field in the order title, artist, album, album_artist, composer,
genre, date, comment (empty fields produce no line), a blank line, then
per chapter a `[CHAPTER]` block with `TIMEBASE=1/1000`, `START`/`END`
truncated (not rounded) to integer milliseconds, the title line and a
trailing blank line. -/
theorem create_chapter_metadata_matches_spec (chapters : List ChapterOut) (m : OutputMetadata) :
    create_chapter_metadata chapters m = specSideChannelDoc chapters m := by
  unfold create_chapter_metadata specSideChannelDoc specBookFields
  simp only [List.map_cons, List.map_nil, String.join, List.foldl_cons, List.foldl_nil,
    String.append_assoc, truthyIf]
  rw [mergeKey "title" "title=" (by decide), mergeKey "artist" "artist=" (by decide),
    mergeKey "album" "album=" (by decide), mergeKey "album_artist" "album_artist=" (by decide),
    mergeKey "composer" "composer=" (by decide), mergeKey "genre" "genre=" (by decide),
    mergeKey "date" "date=" (by decide), mergeKey "comment" "comment=" (by decide)]
  simp

/-- C9: the manifest `file,title\n/books/a.m4b\n` — one data row whose
file exists with an accepted extension, so by the claim parsing should
succeed with one valid entry — instead aborts with an uncaught
`AttributeError`: `csv.DictReader` fills the missing `title` cell of the
short row with `None`, and `row.get('title', '').strip()` is then
`None.strip()`.  Neither claimed fatal condition holds: the data slice
has two non-blank rows and the single data row is a valid entry. -/
theorem csv_short_row_crashes :
    parse_csv_input ["file,title\n", "/books/a.m4b\n"] "/books"
        (fun p => p = "/books/a.m4b")
      = Except.error CsvParseFatal.noneTypeHasNoStrip ∧
    (["file,title\n", "/books/a.m4b\n"].filter (fun l => pyStrip l ≠ "")).length = 2 ∧
    (fun p : String => decide (p = "/books/a.m4b")) "/books/a.m4b" = true ∧
    pathSuffixLower "/books/a.m4b" = ".m4b" ∧
    pyStrip "/books/a.m4b" ≠ "" := by
  refine ⟨by decide, by decide, by decide, by decide, by decide⟩

lemma charToNat_inj {a b : Char} (h : a.toNat = b.toNat) : a = b :=
  Char.eq_of_val_eq (UInt32.toNat.inj h)

lemma charListLe_total : ∀ as bs : List Char, (charListLe as bs || charListLe bs as) = true := by
  intro as
  induction as with
  | nil => intro bs; simp [charListLe]
  | cons a as ih =>
    intro bs
    cases bs with
    | nil => simp [charListLe]
    | cons b bs =>
      by_cases hab : a = b
      · subst hab
        simpa [charListLe] using ih bs
      · have hba : ¬ b = a := fun hc => hab hc.symm
        have hne : a.toNat ≠ b.toNat := fun hc => hab (charToNat_inj hc)
        simp [charListLe, hab, hba]
        omega

lemma charListLe_trans : ∀ as bs cs : List Char,
    charListLe as bs = true → charListLe bs cs = true → charListLe as cs = true := by
  intro as
  induction as with
  | nil => intro bs cs _ _; simp [charListLe]
  | cons a as ih =>
    intro bs cs h1 h2
    cases bs with
    | nil => simp [charListLe] at h1
    | cons b bs =>
      cases cs with
      | nil => simp [charListLe] at h2
      | cons c cs =>
        by_cases hab : a = b
        · subst hab
          by_cases hac : a = c
          · subst hac
            simp only [charListLe, if_pos rfl] at h1 h2 ⊢
            exact ih bs cs h1 h2
          · simp only [charListLe, if_neg hac] at h2 ⊢
            exact h2
        · by_cases hbc : b = c
          · subst hbc
            simp only [charListLe, if_neg hab] at h1 ⊢
            exact h1
          · simp only [charListLe, if_neg hab, if_neg hbc] at h1 h2
            have hlt1 : a.toNat < b.toNat := by simpa using h1
            have hlt2 : b.toNat < c.toNat := by simpa using h2
            have hac : a ≠ c := by
              intro hc
              subst hc
              omega
            simp only [charListLe, if_neg hac]
            simp
            omega

lemma charListLe_antisymm : ∀ as bs : List Char,
    charListLe as bs = true → charListLe bs as = true → as = bs := by
  intro as
  induction as with
  | nil =>
    intro bs _ h2
    cases bs with
    | nil => rfl
    | cons b bs => simp [charListLe] at h2
  | cons a as ih =>
    intro bs h1 h2
    cases bs with
    | nil => simp [charListLe] at h1
    | cons b bs =>
      by_cases hab : a = b
      · subst hab
        simp only [charListLe, if_pos rfl] at h1 h2
        rw [ih bs h1 h2]
      · have hba : ¬ b = a := fun hc => hab hc.symm
        simp only [charListLe, if_neg hab, if_neg hba] at h1 h2
        have hlt1 : a.toNat < b.toNat := by simpa using h1
        have hlt2 : b.toNat < a.toNat := by simpa using h2
        omega

lemma keyElemLe_total : ∀ x y : NatKeyElem, (keyElemLe x y || keyElemLe y x) = true := by
  intro x y
  cases x <;> cases y <;> simp [keyElemLe]
  case inl.inl s t => simpa using charListLe_total s.toList t.toList
  case inr.inr m n => omega

lemma keyElemLe_trans : ∀ x y z : NatKeyElem,
    keyElemLe x y = true → keyElemLe y z = true → keyElemLe x z = true := by
  intro x y z h1 h2
  cases x <;> cases y <;> cases z <;> simp_all [keyElemLe]
  case inl.inl.inl s t u => exact charListLe_trans _ _ _ h1 h2
  case inr.inr.inr m n p => omega

lemma keyElemLe_antisymm : ∀ x y : NatKeyElem,
    keyElemLe x y = true → keyElemLe y x = true → x = y := by
  intro x y h1 h2
  cases x <;> cases y
  case inl.inl s t =>
    simp only [keyElemLe] at h1 h2
    exact congrArg Sum.inl (String.ext (charListLe_antisymm s.toList t.toList h1 h2))
  case inl.inr s n => simp [keyElemLe] at h2
  case inr.inl m t => simp [keyElemLe] at h1
  case inr.inr m n =>
    simp only [keyElemLe, decide_eq_true_eq] at h1 h2
    exact congrArg Sum.inr (Nat.le_antisymm h1 h2)

lemma keyLe_total : ∀ xs ys : List NatKeyElem, (keyLe xs ys || keyLe ys xs) = true := by
  intro xs
  induction xs with
  | nil => intro ys; simp [keyLe]
  | cons x xs ih =>
    intro ys
    cases ys with
    | nil => simp [keyLe]
    | cons y ys =>
      by_cases hxy : x = y
      · subst hxy
        simpa [keyLe] using ih ys
      · have hyx : ¬ y = x := fun hc => hxy hc.symm
        simpa [keyLe, hxy, hyx] using keyElemLe_total x y

lemma keyLe_trans : ∀ xs ys zs : List NatKeyElem,
    keyLe xs ys = true → keyLe ys zs = true → keyLe xs zs = true := by
  intro xs
  induction xs with
  | nil => intro ys zs _ _; simp [keyLe]
  | cons x xs ih =>
    intro ys zs h1 h2
    cases ys with
    | nil => simp [keyLe] at h1
    | cons y ys =>
      cases zs with
      | nil => simp [keyLe] at h2
      | cons z zs =>
        by_cases hxy : x = y
        · subst hxy
          by_cases hxz : x = z
          · subst hxz
            simp only [keyLe, if_pos rfl] at h1 h2 ⊢
            exact ih ys zs h1 h2
          · simp only [keyLe, if_neg hxz] at h2 ⊢
            exact h2
        · by_cases hyz : y = z
          · subst hyz
            simp only [keyLe, if_neg hxy] at h1 ⊢
            exact h1
          · simp only [keyLe, if_neg hxy, if_neg hyz] at h1 h2
            by_cases hxz : x = z
            · subst hxz
              have := keyElemLe_antisymm x y h1 h2
              exact absurd this hxy
            · simp only [keyLe, if_neg hxz]
              exact keyElemLe_trans x y z h1 h2

lemma fileNatLe_total : ∀ a b : String, (fileNatLe a b || fileNatLe b a) = true := by
  intro a b
  exact keyLe_total _ _

lemma fileNatLe_trans : ∀ a b c : String,
    fileNatLe a b = true → fileNatLe b c = true → fileNatLe a c = true := by
  intro a b c h1 h2
  exact keyLe_trans _ _ _ h1 h2

/-- C3 amended: whatever order the manifest rows give, the file list a
combine run works through is the natural-sort (by basename key) of those
files: a permutation of the manifest entries that is pairwise ordered by
the natural-sort comparison.  Manifest row order is not preserved. -/
theorem combine_order_is_natural_sorted (file_title_list : List CsvEntry) :
    (combineFileOrder (file_title_list.map CsvEntry.file)).Perm
      (file_title_list.map CsvEntry.file) ∧
    List.Pairwise (fun a b => fileNatLe a b = true)
      (combineFileOrder (file_title_list.map CsvEntry.file)) := by
  constructor
  · exact List.mergeSort_perm _ fileNatLe
  · exact List.sorted_mergeSort fileNatLe_trans fileNatLe_total _

/-- C3 counterexample: a manifest listing `b10.m4b` before `b2.m4b`
parses to entries in row order, but `combine_m4b_files` then natural-sorts
the file list (line 473 runs whether or not the input came from a CSV), so
the combine/chapter order is `[b2, b10]`, not the manifest's `[b10, b2]`. -/
theorem csv_order_not_manifest_order :
    parse_csv_input ["file,title\n", "/b/b10.m4b,Ten\n", "/b/b2.m4b,Two\n"] "/b"
        (fun p => p = "/b/b10.m4b" ∨ p = "/b/b2.m4b")
      = Except.ok ([⟨"/b/b10.m4b", "Ten"⟩, ⟨"/b/b2.m4b", "Two"⟩], []) ∧
    combineFileOrder ["/b/b10.m4b", "/b/b2.m4b"] = ["/b/b2.m4b", "/b/b10.m4b"] ∧
    (["/b/b2.m4b", "/b/b10.m4b"] : List String) ≠ ["/b/b10.m4b", "/b/b2.m4b"] := by
  refine ⟨by decide, ?_, by decide⟩
  have h : fileNatLe "/b/b10.m4b" "/b/b2.m4b" = false := by decide
  simp [combineFileOrder, List.mergeSort, List.merge, h]

end M4b
